import Mathlib

/-!
# SVD SGD trainer (`hw6/svd_train.cpp`)

A shallow embedding of the program's globals and of the blocks of `main`,
followed by the properties established about them.

Modelling conventions.
* Exact arithmetic.  In the definitions over `F`, `float`/`double` values are
  elements of an arbitrary linearly ordered field (the definitions run on `ℚ`,
  the theorems also hold on `ℝ`); rounding, overflow and NaN do not occur
  there.  The statements made with arithmetic taken as exact use them.
* Floating-point arithmetic.  `fval` holds the data of `float` (binary32) and
  `double` (binary64): finite values, the two infinities and NaN.  Every
  operation returns the exact result rounded to nearest, ties to even, with
  gradual underflow and overflow to an infinity; operations on `float` operands
  round to binary32 (no excess precision, no fused multiply-add).  The two
  zeros are not told apart (no operation of the program depends on the sign of
  a zero).  `predict32` and `holdoutMSE32` are `predict` and the hold-out
  block in this arithmetic.
* The C library `sqrt` is a parameter `sqrt : F → F`; statements that depend on
  its values instantiate it with `Real.sqrt`.
* The global arrays are total functions of their indices; the compile-time
  sizes are fields of `Params` so that the loops can be run on small sizes.
  Indices and `n_rows` are natural numbers.  An access outside the declared
  bounds, undefined in C, is not given a result of its own.
* Files are modelled by what the `fscanf`/`fread` calls deliver: a list (or an
  indexed family) of parsed records.  A text file read by a `while (!feof(f))`
  loop carries a flag `trailing`: white space (a final newline) follows the last
  record.  `feof` then is still false after the last record, and the loop makes
  one more pass in which `fscanf` assigns nothing.  A failing `fopen` is not
  modelled.
* `rand()` after `srand(1)` is a parameter `rand : Nat → Nat` (the sequence of
  draws) together with the number of draws made so far.
* Diagnostics written to standard output are not modelled.
-/

set_option linter.unusedSectionVars false

namespace SvdTrain

variable {F : Type} [LinearOrderedField F]

/-! ## Flags, parameters, datatypes -/

/-- Source: `const bool READ_FROM_BINARY = true;`. -/
def READ_FROM_BINARY : Bool := true

/-- Source: `const bool INIT_FROM_FILE = !true;`. -/
def INIT_FROM_FILE : Bool := !true

/-- The compile-time constants of the source (`N_SVD_FEATURES`, `N_ITERS`,
`L_RATE`, `N_ROWS`, `N_USERS`, `N_ITEMS`). -/
structure Params (F : Type) where
  N_SVD_FEATURES : Nat
  N_ITERS : Nat
  L_RATE : F
  N_ROWS : Nat
  N_USERS : Nat
  N_ITEMS : Nat

/-- The values the constants have in the source file. -/
def sourceParams : Params F :=
  { N_SVD_FEATURES := 300
    N_ITERS := 300000000
    L_RATE := 1 / 10
    N_ROWS := 100000000
    N_USERS := 500000
    N_ITEMS := 20000 }

/-- Source: `struct df_entry { int user; int item; int rating; }`. -/
structure df_entry where
  user : Nat
  item : Nat
  rating : Int

/-- Source: `struct dataframe { int n_rows; df_entry rows[N_ROWS]; }`. -/
structure dataframe where
  n_rows : Nat
  rows : Nat → df_entry

/-- The global arrays `df`, `user_vec`, `item_vec`, and the position in the
`rand()` sequence. -/
structure Globals (F : Type) where
  df : dataframe
  user_vec : Nat → Nat → F
  item_vec : Nat → Nat → F
  rand_pos : Nat

/-- Assignment `a[r][c] = v` on a two-dimensional array. -/
def set2 (a : Nat → Nat → F) (r c : Nat) (v : F) : Nat → Nat → F :=
  Function.update a r (Function.update (a r) c v)

/-! ## `predict` -/

/-- Source: `predict` (the `#else` branch, `BASELINE_MODEL` undefined).
```
float rating_pred = 0;
for (int t = 0; t < N_SVD_FEATURES; t++)
    rating_pred += user_vec[user][t] * item_vec[item][t];
if (rating_pred < 1) rating_pred = 1;
if (rating_pred > 5) rating_pred = 5;
return rating_pred;
```
-/
def predict (p : Params F) (g : Globals F) (user item : Nat) : F :=
  let rating_pred : F :=
    (List.range p.N_SVD_FEATURES).foldl
      (fun rating_pred t => rating_pred + g.user_vec user t * g.item_vec item t) 0
  let rating_pred : F := if rating_pred < 1 then 1 else rating_pred
  let rating_pred : F := if rating_pred > 5 then 5 else rating_pred
  rating_pred

/-- Specification side: the dot product `Σ_{t < K} a[t] * b[t]` of two rows. -/
def dotProduct (K : Nat) (a b : Nat → F) : F :=
  ∑ t ∈ Finset.range K, a t * b t

/-- Specification side: `clip(x, 1, 5)`. -/
def clip15 (x : F) : F := max 1 (min x 5)

/-! ## Control flow of the loops -/

/-- Outcome of executing a statement inside a loop body: control reaches the
next statement (`next`), a `continue` was executed (`cont`), or the statement
has no defined behaviour (`undef`, here: the integer remainder `% 0`). -/
inductive Flow (σ : Type) where
  | next : σ → Flow σ
  | cont : σ → Flow σ
  | undef : Flow σ

/-- Sequencing `s1; s2`: the second statement runs only when control reaches
it; after `continue` the rest of the body is skipped. -/
def Flow.andThen {σ : Type} (x : Flow σ) (f : σ → Flow σ) : Flow σ :=
  match x with
  | Flow.next s => f s
  | Flow.cont s => Flow.cont s
  | Flow.undef => Flow.undef

/-- End of one loop iteration: a `continue` resumes with the next iteration. -/
def Flow.endIter {σ : Type} (x : Flow σ) : Flow σ :=
  match x with
  | Flow.cont s => Flow.next s
  | y => y

/-- The statement completed and control goes on (no undefined behaviour). -/
def Flow.isNext {σ : Type} (x : Flow σ) : Bool :=
  match x with
  | Flow.next _ => true
  | _ => false

/-- The state a completed statement leaves. -/
def Flow.state? {σ : Type} (x : Flow σ) : Option σ :=
  match x with
  | Flow.next s => some s
  | Flow.cont s => some s
  | Flow.undef => none

/-- Loop `for (int i = 0; i < n; i++) body` whose body may `continue` or be
undefined. -/
def forRange {σ : Type} (n : Nat) (body : Nat → σ → Flow σ) (s : σ) : Flow σ :=
  (List.range n).foldl (fun acc i => acc.andThen (fun s => (body i s).endIter)) (Flow.next s)

/-- Loop `for (int i = 0; i < n; i++) body` with a straight-line body. -/
def forPure {σ : Type} (n : Nat) (body : Nat → σ → σ) (s : σ) : σ :=
  (List.range n).foldl (fun s i => body i s) s

/-! ## Initialisation of the factor tables -/

/-- Source: the `else` branch of the initialisation block, with the stored
value `1. / sqrt(N_SVD_FEATURES)` abstracted to `v`.
```
for (int i = 0; i < N_SVD_FEATURES; i++) {
    for (int j = 0; j < N_USERS; j++) user_vec[j][i] = v;
    for (int j = 0; j < N_ITEMS; j++) item_vec[j][i] = v;
}
```
-/
def initConstant (p : Params F) (v : F) (g : Globals F) : Globals F :=
  forPure p.N_SVD_FEATURES (fun i g =>
    let g := forPure p.N_USERS (fun j g => { g with user_vec := set2 g.user_vec j i v }) g
    let g := forPure p.N_ITEMS (fun j g => { g with item_vec := set2 g.item_vec j i v }) g
    g) g

/-- Source: the initialisation block of `main`.  `uv_file` and `iv_file` are
the contents of the two `.bin` files, which `fread` copies over the whole
arrays when `INIT_FROM_FILE` is set. -/
def initVectors (p : Params F) (sqrt : F → F) (uv_file iv_file : Nat → Nat → F)
    (g : Globals F) : Globals F :=
  if INIT_FROM_FILE then
    { g with user_vec := uv_file, item_vec := iv_file }
  else
    initConstant p (1 / sqrt (p.N_SVD_FEATURES : F)) g

/-! ## Reading the dataset -/

/-- Contents of `train.bin` as `fread(&df, sizeof(df), 1, f)` sees them: the
leading `int` that lands in `df.n_rows` and the `df_entry` records after it. -/
structure bin_file where
  n_rows : Nat
  rows : List df_entry

/-- Source: `fread(&df, sizeof(df), 1, f)`.  One object of `sizeof(df)` bytes
is copied: the count field and at most `N_ROWS` records; whatever follows in
the file is not read, slots the file does not reach keep their contents. -/
def readBinary (N_ROWS : Nat) (file : bin_file) (df : dataframe) : dataframe :=
  { n_rows := file.n_rows
    rows := fun k => if k < N_ROWS then (file.rows[k]?).getD (df.rows k) else df.rows k }

/-- Contents of `data/learn.ssv` after the header: the records `fscanf` parses
and whether white space follows the last of them. -/
structure text_file where
  rows : List df_entry
  trailing : Bool

/-- Source: the text branch.
```
while (!feof(f)) {
    fscanf(f, "%*d%d%d%d", &df.rows[df.n_rows].user, ...item, ...rating);
    df.n_rows++;
}
```
Each record is stored at `rows[n_rows]` and counted.  With trailing white
space `feof` is still false after the last record: one more pass is made, in
which `fscanf` assigns nothing and `n_rows` is incremented all the same. -/
def readText (file : text_file) (df : dataframe) : dataframe :=
  let df : dataframe :=
    file.rows.foldl
      (fun df r => { n_rows := df.n_rows + 1, rows := Function.update df.rows df.n_rows r }) df
  if file.trailing then { n_rows := df.n_rows + 1, rows := df.rows } else df

/-- Source: the block `// Reading dataset` of `main`. -/
def readDataset (p : Params F) (fromBinary : Bool) (bin : bin_file) (txt : text_file)
    (g : Globals F) : Globals F :=
  if fromBinary then
    { g with df := readBinary p.N_ROWS bin g.df }
  else
    { g with df := readText txt g.df }

/-! ## Training -/

/-- Source: the value `N_ITERS / sqrt(i + 1)` that bounds the inner loop and is
printed for each feature. -/
def iterations (p : Params F) (sqrt : F → F) (i : Nat) : F :=
  (p.N_ITERS : F) / sqrt ((i + 1 : Nat) : F)

/-- Number of iterations of `for (int j = 0; j < N_ITERS / sqrt(i + 1); j++)`:
the number of integers `j ≥ 0` below the bound. -/
def innerSteps [FloorRing F] (p : Params F) (sqrt : F → F) (i : Nat) : Nat :=
  ⌈iterations p sqrt i⌉₊

/-- Source: body of the inner training loop, for feature `i`.
```
int k = rand() % df.n_rows;
int user = df.rows[k].user, item = df.rows[k].item;
float rating_true = (float) df.rows[k].rating;
float rating_pred = predict(user, item);
float err = L_RATE * (rating_true - rating_pred);
float uv = user_vec[user][i];
user_vec[user][i] += err * item_vec[item][i];
item_vec[item][i] += err * uv;
```
-/
def sgdStep (p : Params F) (rand : Nat → Nat) (i : Nat) (g : Globals F) : Flow (Globals F) :=
  if g.df.n_rows = 0 then Flow.undef
  else
    let k := rand g.rand_pos % g.df.n_rows
    let g : Globals F := { g with rand_pos := g.rand_pos + 1 }
    let user := (g.df.rows k).user
    let item := (g.df.rows k).item
    let rating_true : F := ((g.df.rows k).rating : F)
    let rating_pred : F := predict p g user item
    let err : F := p.L_RATE * (rating_true - rating_pred)
    let uv : F := g.user_vec user i
    let g : Globals F :=
      { g with user_vec := set2 g.user_vec user i (g.user_vec user i + err * g.item_vec item i) }
    let g : Globals F :=
      { g with item_vec := set2 g.item_vec item i (g.item_vec item i + err * uv) }
    Flow.next g

/-- Source: the inner training loop
`for (int j = 0; j < N_ITERS / sqrt(i + 1); j++) { ... }`. -/
def innerLoop [FloorRing F] (p : Params F) (sqrt : F → F) (rand : Nat → Nat) (i : Nat)
    (g : Globals F) : Flow (Globals F) :=
  forRange (innerSteps p sqrt i) (fun _ g => sgdStep p rand i g) g

/-- Source: body of the outer training loop.
```
printf("%f\n", N_ITERS / sqrt(i + 1));
continue;
for (int j = 0; ...) { ... }
printf("Finish for feature %d\n", i);
```
-/
def featureBody [FloorRing F] (p : Params F) (sqrt : F → F) (rand : Nat → Nat) (i : Nat)
    (g : Globals F) : Flow (Globals F) :=
  (Flow.cont g).andThen fun g =>
  (innerLoop p sqrt rand i g).andThen fun g =>
  Flow.next g

/-- Source: the training block (`#else` branch).
```
srand(1);
for (int i = 0; i < N_SVD_FEATURES; i++) { ... }
```
-/
def train [FloorRing F] (p : Params F) (sqrt : F → F) (rand : Nat → Nat) (g : Globals F) :
    Flow (Globals F) :=
  forRange p.N_SVD_FEATURES (featureBody p sqrt rand) { g with rand_pos := 0 }

/-! ## Hold-out MSE -/

/-- One record of `data/holdout.ssv` after the ignored leading id. -/
structure holdout_rec (F : Type) where
  user : Nat
  item : Nat
  rating_true : F

/-- Source: the block `// Holdout MSE`; `n_holdout` is `1500000` in the source
and `file i` is the record the `i`-th `fscanf` reads.
```
float mse = 0, ninv = 1. / n_holdout;
for (int i = 0; i < n_holdout; i++) {
    fscanf(f, "%*d%d%d%f", &user, &item, &rating_true);
    float rating_pred = predict(user, item);
    mse += ninv * (rating_true - rating_pred) * (rating_true - rating_pred);
}
```
-/
def holdoutMSE (p : Params F) (n_holdout : Nat) (file : Nat → holdout_rec F)
    (g : Globals F) : F :=
  let ninv : F := 1 / (n_holdout : F)
  forPure n_holdout (fun i mse =>
    let r := file i
    let rating_pred : F := predict p g r.user r.item
    mse + ninv * (r.rating_true - rating_pred) * (r.rating_true - rating_pred)) 0

/-- Specification side: `(1/n) * Σ_{k < n} (true_k - pred_k)^2`. -/
def meanSquaredError (p : Params F) (n : Nat) (file : Nat → holdout_rec F)
    (g : Globals F) : F :=
  (1 / (n : F)) *
    ∑ k ∈ Finset.range n, ((file k).rating_true - predict p g (file k).user (file k).item) ^ 2

/-! ## Submission -/

/-- One record of `data/test-ids.csv`. -/
structure test_rec where
  id : Int
  user : Nat
  item : Nat

/-- Contents of `data/test-ids.csv` after the header: the records `fscanf`
parses and whether white space (a final newline) follows the last token read
so far, so that `feof(fi)` is still false when the records are used up. -/
structure test_file where
  rows : List test_rec
  trailing : Bool

/-- Source: the loop of the block `// Fill out submission`, started with
counter `i`.
```
while (!feof(fi)) {
    int id, user, item;
    fscanf(fi, "%d%d%d", &id, &user, &item);
    if (i != id) break;
    float rating_pred = predict(user, item);
    fprintf(fo, "%d,%f\n", id, rating_pred);
    i++;
}
```
`rows` are the records still to be read and `locals` is what the variables
`id`, `user`, `item` hold: `none` as long as no `fscanf` has assigned them,
afterwards the record of the previous pass (they are not initialised and the
compiled code keeps them in the same stack slots).  The result is the list of
rows written to the submission file, or `none` when the loop has no defined
behaviour.

When the records are used up and `trailing` is set, `feof(fi)` is false and one
more pass runs: `fscanf` assigns nothing, so `i != id` compares the stale `id`,
or an `id` that was never assigned, which is undefined.  If the comparison
lets the pass go on, a row is written for the stale record; `feof(fi)` is true
afterwards. -/
def submissionLoop (p : Params F) (g : Globals F) (trailing : Bool) :
    Int → Option test_rec → List test_rec → Option (List (Int × F))
  | i, locals, [] =>
    if trailing then
      match locals with
      | none => none
      | some r => if i ≠ r.id then some [] else some [(r.id, predict p g r.user r.item)]
    else some []
  | i, _, r :: rest =>
    if i ≠ r.id then some []
    else
      (submissionLoop p g trailing (i + 1) (some r) rest).map
        (fun out => (r.id, predict p g r.user r.item) :: out)

/-- Source: the block `// Fill out submission` (`int i = 1;` then the loop,
entered with `id`, `user`, `item` not yet assigned). -/
def fillSubmission (p : Params F) (g : Globals F) (file : test_file) :
    Option (List (Int × F)) :=
  submissionLoop p g file.trailing 1 none file.rows

/-- Row `(id, prediction)` the submission loop writes for a test record. -/
def submissionRow (p : Params F) (g : Globals F) (r : test_rec) : Int × F :=
  (r.id, predict p g r.user r.item)


/-! ## Floating-point arithmetic -/

/-- A `float` or `double` datum: a finite value, `+inf`, `-inf` or NaN. -/
inductive fval where
  | fin : ℚ → fval
  | pinf : fval
  | ninf : fval
  | nan : fval

/-- The datum is NaN. -/
def fval.isNaN : fval → Bool
  | fval.nan => true
  | _ => false

/-- The datum is finite. -/
def fval.isFinite : fval → Bool
  | fval.fin _ => true
  | _ => false

/-- The value of a finite datum. -/
def fval.toRat? : fval → Option ℚ
  | fval.fin q => some q
  | _ => none

/-- Number of halvings that bring `n` below `2`: `⌊log2 n⌋` for `n ≥ 1`, when
`fuel ≥ n`. -/
def bitLog : Nat → Nat → Nat
  | 0, _ => 0
  | fuel + 1, n => if n < 2 then 0 else bitLog fuel (n / 2) + 1

/-- The binary exponent `⌊log2 (n / d)⌋` of a positive fraction. -/
def floorLog2 (n d : Nat) : Int :=
  if d * 2 ^ bitLog n n ≤ n * 2 ^ bitLog d d then (bitLog n n : Int) - (bitLog d d : Int)
  else (bitLog n n : Int) - (bitLog d d : Int) - 1

/-- Rounding of the positive fraction `n / d` to the format with `prec`
significant bits and largest exponent `emax` (smallest normal exponent
`1 - emax`): the nearest multiple of the quantum `2 ^ qe` of its binade, ties
to the even multiple; `none` when the rounded value is beyond the largest
finite number (overflow). -/
def roundPos (prec : Nat) (emax : Int) (n d : Nat) : Option ℚ :=
  let e : Int := max (floorLog2 n d) (1 - emax)
  let qe : Int := e - ((prec : Int) - 1)
  let N : Nat := n * 2 ^ (-qe).toNat
  let D : Nat := d * 2 ^ qe.toNat
  let k : Nat := N / D
  let r : Nat := N % D
  let k : Nat :=
    if 2 * r < D then k else if D < 2 * r then k + 1 else if k % 2 = 0 then k else k + 1
  if 2 ^ (emax + 1).toNat * 2 ^ (-qe).toNat ≤ k * 2 ^ qe.toNat then none
  else some (((k * 2 ^ qe.toNat : Nat) : ℚ) / ((2 ^ (-qe).toNat : Nat) : ℚ))

/-- Rounding of an exact result to a binary format: to nearest, ties to even,
overflow to the infinity of its sign. -/
def fround (prec : Nat) (emax : Int) (q : ℚ) : fval :=
  if q = 0 then fval.fin 0
  else if 0 < q then
    match roundPos prec emax q.num.natAbs q.den with
    | some v => fval.fin v
    | none => fval.pinf
  else
    match roundPos prec emax q.num.natAbs q.den with
    | some v => fval.fin (-v)
    | none => fval.ninf

/-- Rounding to `float`: 24 significant bits, exponents up to 127. -/
def round32 (q : ℚ) : fval := fround 24 127 q

/-- Rounding to `double`: 53 significant bits, exponents up to 1023. -/
def round64 (q : ℚ) : fval := fround 53 1023 q

/-- Conversion of a `double` to `float`. -/
def fval.toFloat : fval → fval
  | fval.fin q => round32 q
  | x => x

/-- Negation. -/
def fval.neg : fval → fval
  | fval.fin q => fval.fin (-q)
  | fval.pinf => fval.ninf
  | fval.ninf => fval.pinf
  | fval.nan => fval.nan

/-- Sum of two `float` values. -/
def fval.add32 : fval → fval → fval
  | fval.fin a, fval.fin b => round32 (a + b)
  | fval.nan, _ => fval.nan
  | _, fval.nan => fval.nan
  | fval.pinf, fval.ninf => fval.nan
  | fval.ninf, fval.pinf => fval.nan
  | fval.pinf, _ => fval.pinf
  | _, fval.pinf => fval.pinf
  | fval.ninf, _ => fval.ninf
  | _, fval.ninf => fval.ninf

/-- Difference of two `float` values. -/
def fval.sub32 (a b : fval) : fval := fval.add32 a (fval.neg b)

/-- Product of two `float` values. -/
def fval.mul32 : fval → fval → fval
  | fval.fin a, fval.fin b => round32 (a * b)
  | fval.nan, _ => fval.nan
  | _, fval.nan => fval.nan
  | fval.fin a, fval.pinf => if a = 0 then fval.nan else if 0 < a then fval.pinf else fval.ninf
  | fval.fin a, fval.ninf => if a = 0 then fval.nan else if 0 < a then fval.ninf else fval.pinf
  | fval.pinf, fval.fin b => if b = 0 then fval.nan else if 0 < b then fval.pinf else fval.ninf
  | fval.ninf, fval.fin b => if b = 0 then fval.nan else if 0 < b then fval.ninf else fval.pinf
  | fval.pinf, fval.pinf => fval.pinf
  | fval.pinf, fval.ninf => fval.ninf
  | fval.ninf, fval.pinf => fval.ninf
  | fval.ninf, fval.ninf => fval.pinf

/-- Comparison `a < b`; false as soon as one side is NaN. -/
def fval.lt : fval → fval → Bool
  | fval.fin a, fval.fin b => decide (a < b)
  | fval.fin _, fval.pinf => true
  | fval.ninf, fval.fin _ => true
  | fval.ninf, fval.pinf => true
  | _, _ => false

/-- Source: the accumulation loop of `predict`, in `float` arithmetic.
```
float rating_pred = 0;
for (int t = 0; t < N_SVD_FEATURES; t++)
    rating_pred += user_vec[user][t] * item_vec[item][t];
```
-/
def dotLoop32 (p : Params fval) (g : Globals fval) (user item : Nat) : fval :=
  (List.range p.N_SVD_FEATURES).foldl
    (fun rating_pred t =>
      fval.add32 rating_pred (fval.mul32 (g.user_vec user t) (g.item_vec item t)))
    (fval.fin 0)

/-- Source: `predict`, in `float` arithmetic: the accumulation loop, then
```
if (rating_pred < 1) rating_pred = 1;
if (rating_pred > 5) rating_pred = 5;
return rating_pred;
```
-/
def predict32 (p : Params fval) (g : Globals fval) (user item : Nat) : fval :=
  let rating_pred : fval := dotLoop32 p g user item
  let rating_pred : fval := if fval.lt rating_pred (fval.fin 1) then fval.fin 1 else rating_pred
  let rating_pred : fval := if fval.lt (fval.fin 5) rating_pred then fval.fin 5 else rating_pred
  rating_pred

/-- Source: the block `// Holdout MSE`, in the arithmetic of the source:
`1. / n_holdout` is a `double` division whose result is converted to `float`,
everything else is `float` arithmetic.
```
float mse = 0, ninv = 1. / n_holdout;
for (int i = 0; i < n_holdout; i++) {
    fscanf(f, "%*d%d%d%f", &user, &item, &rating_true);
    float rating_pred = predict(user, item);
    mse += ninv * (rating_true - rating_pred) * (rating_true - rating_pred);
}
```
-/
def holdoutMSE32 (p : Params fval) (n_holdout : Nat) (file : Nat → holdout_rec fval)
    (g : Globals fval) : fval :=
  let ninv : fval :=
    if n_holdout = 0 then fval.pinf else fval.toFloat (round64 (1 / (n_holdout : ℚ)))
  forPure n_holdout (fun i mse =>
    let r := file i
    let rating_pred : fval := predict32 p g r.user r.item
    fval.add32 mse
      (fval.mul32 (fval.mul32 ninv (fval.sub32 r.rating_true rating_pred))
        (fval.sub32 r.rating_true rating_pred))) (fval.fin 0)

/-- Specification side, on the values of the `float` model: the exact mean
`(1/n) * Σ_{k < n} (true_k - pred_k)^2` of the squared errors of the
predictions `predict32` returns (`0` stands in for a value that is not
finite). -/
def meanSquaredError32 (p : Params fval) (n : Nat) (file : Nat → holdout_rec fval)
    (g : Globals fval) : ℚ :=
  (1 / (n : ℚ)) *
    ∑ k ∈ Finset.range n,
      (((file k).rating_true.toRat?).getD 0 -
        ((predict32 p g (file k).user (file k).item).toRat?).getD 0) ^ 2

/-! ## Small concrete inputs

Used to run the definitions on rational numbers and on `float` values. -/

/-- Two features, capacity for four rating rows, three users, two items. -/
def smallParams : Params ℚ :=
  { N_SVD_FEATURES := 2, N_ITERS := 3, L_RATE := 1 / 10, N_ROWS := 4, N_USERS := 3, N_ITEMS := 2 }

/-- Globals as they are at program start (zero-filled) with an empty store. -/
def emptyGlobals : Globals F :=
  { df := { n_rows := 0, rows := fun _ => ⟨0, 0, 0⟩ }
    user_vec := fun _ _ => 0
    item_vec := fun _ _ => 0
    rand_pos := 0 }

/-- Globals with two rating rows and non-constant factor tables:
`user_vec[u][t] = u + t + 1`, `item_vec[i][t] = 1 / (i + t + 1)`. -/
def sampleGlobals : Globals ℚ :=
  { df := { n_rows := 2, rows := fun k => if k = 0 then ⟨1, 0, 4⟩ else ⟨2, 1, 5⟩ }
    user_vec := fun u t => (u : ℚ) + t + 1
    item_vec := fun i t => 1 / ((i : ℚ) + t + 1)
    rand_pos := 0 }

/-- A binary source holding five records, one more than `smallParams.N_ROWS`. -/
def fiveRowFile : bin_file :=
  { n_rows := 5, rows := [⟨1, 1, 1⟩, ⟨2, 0, 2⟩, ⟨0, 1, 3⟩, ⟨1, 1, 4⟩, ⟨2, 0, 5⟩] }

/-- One feature; user `0` has factor `1`, items `0` and `1` have factors `3`
and `4`, so that the predictions for `(0, 0)` and `(0, 1)` are `3` and `4`. -/
def mseParams : Params ℚ :=
  { N_SVD_FEATURES := 1, N_ITERS := 1, L_RATE := 1 / 10, N_ROWS := 1, N_USERS := 1, N_ITEMS := 2 }

/-- Factor tables for `mseParams`. -/
def mseGlobals : Globals ℚ :=
  { df := { n_rows := 0, rows := fun _ => ⟨0, 0, 0⟩ }
    user_vec := fun _ _ => 1
    item_vec := fun i _ => if i = 0 then 3 else 4
    rand_pos := 0 }

/-- Two hold-out records with true ratings `3` and `5`. -/
def mseFile : Nat → holdout_rec ℚ :=
  fun k => if k = 0 then ⟨0, 0, 3⟩ else ⟨0, 1, 5⟩

/-- The constants of the source file, `L_RATE` being the `float` nearest to the
`double` literal `0.1`. -/
def sourceParams32 : Params fval :=
  { N_SVD_FEATURES := 300
    N_ITERS := 300000000
    L_RATE := fval.toFloat (round64 (1 / 10))
    N_ROWS := 100000000
    N_USERS := 500000
    N_ITEMS := 20000 }

/-- Factor tables with finite entries only: every user row is
`2^100, -2^100, 0, 0, ...` and every item row is `2^100, 2^100, 0, 0, ...`
(`2^100 = 1267650600228229401496703205376` is a `float`). -/
def overflowGlobals : Globals fval :=
  { df := { n_rows := 0, rows := fun _ => ⟨0, 0, 0⟩ }
    user_vec := fun _ t =>
      if t = 0 then fval.fin 1267650600228229401496703205376
      else if t = 1 then fval.fin (-1267650600228229401496703205376)
      else fval.fin 0
    item_vec := fun _ t =>
      if t < 2 then fval.fin 1267650600228229401496703205376 else fval.fin 0
    rand_pos := 0 }

/-- The parameters `mseParams` for the `float` model. -/
def mseParams32 : Params fval :=
  { N_SVD_FEATURES := 1, N_ITERS := 1, L_RATE := fval.toFloat (round64 (1 / 10)),
    N_ROWS := 1, N_USERS := 1, N_ITEMS := 2 }

/-- The tables `mseGlobals` as `float` values: the predictions for `(0, 0)` and
`(0, 1)` are `3` and `4`. -/
def mseGlobals32 : Globals fval :=
  { df := { n_rows := 0, rows := fun _ => ⟨0, 0, 0⟩ }
    user_vec := fun _ _ => fval.fin 1
    item_vec := fun i _ => if i = 0 then fval.fin 3 else fval.fin 4
    rand_pos := 0 }

/-- The two hold-out records of `mseFile` as `float` values. -/
def mseFile32 : Nat → holdout_rec fval :=
  fun k => if k = 0 then ⟨0, 0, fval.fin 3⟩ else ⟨0, 1, fval.fin 5⟩

/-- Three hold-out records for user `0` and item `0` (prediction `3`) with true
ratings `4`, `3`, `3`: squared errors `1`, `0`, `0`. -/
def threeRecordFile32 : Nat → holdout_rec fval :=
  fun k => if k = 0 then ⟨0, 0, fval.fin 4⟩ else ⟨0, 0, fval.fin 3⟩

/-! ## Lemmas on `predict` -/

lemma foldl_range_eq_sum (f : Nat → F) (K : Nat) :
    (List.range K).foldl (fun acc t => acc + f t) 0 = ∑ t ∈ Finset.range K, f t := by
  induction K with
  | zero => simp
  | succ n ih => rw [List.range_succ, List.foldl_append, ih, Finset.sum_range_succ]; rfl

lemma predict_unfold (p : Params F) (g : Globals F) (user item : Nat) :
    predict p g user item =
      if (if dotProduct p.N_SVD_FEATURES (g.user_vec user) (g.item_vec item) < 1 then 1
          else dotProduct p.N_SVD_FEATURES (g.user_vec user) (g.item_vec item)) > 5 then 5
      else (if dotProduct p.N_SVD_FEATURES (g.user_vec user) (g.item_vec item) < 1 then 1
          else dotProduct p.N_SVD_FEATURES (g.user_vec user) (g.item_vec item)) := by
  unfold predict dotProduct
  rw [foldl_range_eq_sum (fun t => g.user_vec user t * g.item_vec item t)]

lemma predict_eq_clip (p : Params F) (g : Globals F) (user item : Nat) :
    predict p g user item =
      clip15 (dotProduct p.N_SVD_FEATURES (g.user_vec user) (g.item_vec item)) := by
  rw [predict_unfold]
  generalize dotProduct p.N_SVD_FEATURES (g.user_vec user) (g.item_vec item) = d
  unfold clip15
  by_cases h1 : d < 1
  · have h5 : ¬ ((1 : F) > 5) := by norm_num
    rw [if_pos h1, if_neg h5, min_eq_left (by linarith), max_eq_left h1.le]
  · rw [if_neg h1]
    by_cases h5 : d > 5
    · rw [if_pos h5, min_eq_right h5.le, max_eq_right (by norm_num)]
    · rw [if_neg h5, min_eq_left (not_lt.mp h5), max_eq_right (not_lt.mp h1)]

/-! ## Theorems -/

/-- C1: `predict` returns the dot product of the two factor rows over the `K`
features clipped into `[1, 5]`: `1` when the dot product is below `1`, `5` when
it is above `5`, the dot product itself otherwise. -/
theorem predict_is_clipped_dot (p : Params F) (g : Globals F) (user item : Nat) :
    (dotProduct p.N_SVD_FEATURES (g.user_vec user) (g.item_vec item) < 1 →
        predict p g user item = 1) ∧
    (5 < dotProduct p.N_SVD_FEATURES (g.user_vec user) (g.item_vec item) →
        predict p g user item = 5) ∧
    (1 ≤ dotProduct p.N_SVD_FEATURES (g.user_vec user) (g.item_vec item) →
      dotProduct p.N_SVD_FEATURES (g.user_vec user) (g.item_vec item) ≤ 5 →
        predict p g user item =
          dotProduct p.N_SVD_FEATURES (g.user_vec user) (g.item_vec item)) ∧
    predict p g user item =
      clip15 (dotProduct p.N_SVD_FEATURES (g.user_vec user) (g.item_vec item)) := by
  refine ⟨fun h => ?_, fun h => ?_, fun h1 h5 => ?_, predict_eq_clip p g user item⟩
  · rw [predict_eq_clip, clip15, min_eq_left (by linarith), max_eq_left h.le]
  · rw [predict_eq_clip, clip15, min_eq_right h.le, max_eq_right (by norm_num)]
  · rw [predict_eq_clip, clip15, min_eq_left h5, max_eq_right h1]

/-- With arithmetic taken as exact, the value returned by `predict` lies in
`[1, 5]` for all ids and all contents of the factor tables. -/
lemma predict_exact_in_range (p : Params F) (g : Globals F) (user item : Nat) :
    1 ≤ predict p g user item ∧ predict p g user item ≤ 5 := by
  rw [predict_eq_clip, clip15]
  exact ⟨le_max_left _ _, max_le (by norm_num) (min_le_right _ _)⟩

/-! ## `predict` in `float` arithmetic -/

lemma fval.eq_nan_of_isNaN (x : fval) (h : x.isNaN = true) : x = fval.nan := by
  cases x <;> simp [fval.isNaN] at h ⊢

lemma fval.eq_fin_of_toRat? (x : fval) (q : ℚ) (h : x.toRat? = some q) : x = fval.fin q := by
  cases x <;> simp [fval.toRat?] at h ⊢
  exact h

/-- C2 (as stated, refuted): with the constants of the source file and factor
tables whose entries are all finite (`2^100`, `-2^100` and `0`), the products
overflow to `+inf` and `-inf`, their sum is NaN, both comparisons are false and
`predict` returns NaN, which is not a value between `1` and `5`. -/
theorem predict32_nan_on_finite_tables :
    (∀ j t, (overflowGlobals.user_vec j t).isFinite = true) ∧
    (∀ j t, (overflowGlobals.item_vec j t).isFinite = true) ∧
    predict32 sourceParams32 overflowGlobals 0 0 = fval.nan ∧
    ¬ ∃ q : ℚ, predict32 sourceParams32 overflowGlobals 0 0 = fval.fin q ∧ 1 ≤ q ∧ q ≤ 5 := by
  have hnan : predict32 sourceParams32 overflowGlobals 0 0 = fval.nan :=
    fval.eq_nan_of_isNaN _ (by decide!)
  refine ⟨?_, ?_, hnan, ?_⟩
  · intro j t
    simp only [overflowGlobals]
    split_ifs <;> rfl
  · intro j t
    simp only [overflowGlobals]
    split_ifs <;> rfl
  · rintro ⟨q, hq, -⟩
    rw [hnan] at hq
    cases hq

/-- C2 (amended): for every user id, item id and every contents of the two
factor tables, `predict` returns a value `r` with `1 ≤ r ≤ 5` unless the `float`
accumulator of the dot product is NaN after the loop; in that case, and only
then, it returns NaN. -/
theorem predict32_in_range_unless_nan (p : Params fval) (g : Globals fval) (user item : Nat) :
    (dotLoop32 p g user item ≠ fval.nan →
      ∃ q : ℚ, predict32 p g user item = fval.fin q ∧ 1 ≤ q ∧ q ≤ 5) ∧
    (dotLoop32 p g user item = fval.nan → predict32 p g user item = fval.nan) := by
  unfold predict32
  generalize dotLoop32 p g user item = acc
  constructor
  · intro h
    cases acc with
    | fin a =>
      by_cases h1 : a < 1
      · refine ⟨1, ?_, le_refl _, by norm_num⟩
        simp [fval.lt, h1]
      · by_cases h5 : 5 < a
        · refine ⟨5, ?_, by norm_num, le_refl _⟩
          simp [fval.lt, h1, h5]
        · refine ⟨a, ?_, not_lt.mp h1, not_lt.mp h5⟩
          simp [fval.lt, h1, h5]
    | pinf => exact ⟨5, by simp [fval.lt], by norm_num, le_refl _⟩
    | ninf => exact ⟨1, by simp [fval.lt], le_refl _, by norm_num⟩
    | nan => exact absurd rfl h
  · intro h
    subst h
    rfl

/-! ## Lemmas on the loops -/

lemma forPure_succ {σ : Type} (n : Nat) (body : Nat → σ → σ) (s : σ) :
    forPure (n + 1) body s = body n (forPure n body s) := by
  unfold forPure
  rw [List.range_succ, List.foldl_append]
  rfl

lemma forPure_add_eq_sum (f : Nat → F) (n : Nat) :
    forPure n (fun i acc => acc + f i) 0 = ∑ k ∈ Finset.range n, f k := by
  induction n with
  | zero => simp [forPure]
  | succ n ih => rw [forPure_succ, ih, Finset.sum_range_succ]

lemma forRange_succ {σ : Type} (n : Nat) (body : Nat → σ → Flow σ) (s : σ) :
    forRange (n + 1) body s = (forRange n body s).andThen (fun s => (body n s).endIter) := by
  unfold forRange
  rw [List.range_succ, List.foldl_append]
  rfl

lemma forRange_of_cont {σ : Type} (n : Nat) (body : Nat → σ → Flow σ)
    (h : ∀ i s, body i s = Flow.cont s) (s : σ) :
    forRange n body s = Flow.next s := by
  induction n with
  | zero => rfl
  | succ n ih => rw [forRange_succ, ih]; simp [Flow.andThen, Flow.endIter, h]

/-! ## One gradient step -/

/-- C3: one SGD step on feature `t` with sampled record `(u, i, r)` (the row
`rand() % n_rows` of a non-empty store) completes and changes the tables at
`user_vec[u][t]` and `item_vec[i][t]` only, with
`user_vec[u][t] += L_RATE * (r - y) * item_vec[i][t]` and
`item_vec[i][t] += L_RATE * (r - y) * user_vec[u][t]`, where `y = predict(u, i)`
and every value on the right is the one before the step. -/
theorem sgdStep_update (p : Params F) (rand : Nat → Nat) (t : Nat) (g : Globals F)
    (u i : Nat) (r : Int)
    (ht : t < p.N_SVD_FEATURES) (hn : g.df.n_rows ≠ 0)
    (hrow : g.df.rows (rand g.rand_pos % g.df.n_rows) = ⟨u, i, r⟩) :
    ∃ g1 : Globals F, sgdStep p rand t g = Flow.next g1 ∧
      g1.user_vec u t =
        g.user_vec u t + p.L_RATE * ((r : F) - predict p g u i) * g.item_vec i t ∧
      g1.item_vec i t =
        g.item_vec i t + p.L_RATE * ((r : F) - predict p g u i) * g.user_vec u t ∧
      (∀ a b, ¬ (a = u ∧ b = t) → g1.user_vec a b = g.user_vec a b) ∧
      (∀ a b, ¬ (a = i ∧ b = t) → g1.item_vec a b = g.item_vec a b) ∧
      g1.df = g.df := by
  have _ := ht
  unfold sgdStep
  rw [if_neg hn]
  refine ⟨_, rfl, ?_, ?_, ?_, ?_, rfl⟩
  · simp [set2, hrow, predict]
  · simp [set2, hrow, predict]
  · intro a b hab
    by_cases ha : a = u
    · subst ha
      have hb : b ≠ t := fun hb => hab ⟨rfl, hb⟩
      simp [set2, hrow, Function.update, hb]
    · simp [set2, hrow, Function.update, ha]
  · intro a b hab
    by_cases ha : a = i
    · subst ha
      have hb : b ≠ t := fun hb => hab ⟨rfl, hb⟩
      simp [set2, hrow, Function.update, hb]
    · simp [set2, hrow, Function.update, ha]

/-- Witness for C3: the step on feature `0` of `sampleGlobals`, whose first
draw selects the record `(1, 0, 4)`. -/
theorem sgdStep_update_witness :
    ∃ g1 : Globals ℚ, sgdStep smallParams (fun n => n) 0 sampleGlobals = Flow.next g1 ∧
      g1.user_vec 1 0 =
        sampleGlobals.user_vec 1 0 +
          smallParams.L_RATE * (((4 : Int) : ℚ) - predict smallParams sampleGlobals 1 0) *
            sampleGlobals.item_vec 0 0 ∧
      g1.item_vec 0 0 =
        sampleGlobals.item_vec 0 0 +
          smallParams.L_RATE * (((4 : Int) : ℚ) - predict smallParams sampleGlobals 1 0) *
            sampleGlobals.user_vec 1 0 ∧
      (∀ a b, ¬ (a = 1 ∧ b = 0) → g1.user_vec a b = sampleGlobals.user_vec a b) ∧
      (∀ a b, ¬ (a = 0 ∧ b = 0) → g1.item_vec a b = sampleGlobals.item_vec a b) ∧
      g1.df = sampleGlobals.df :=
  sgdStep_update smallParams (fun n => n) 0 sampleGlobals 1 0 4 (by decide) (by decide) rfl

/-! ## Submission -/

lemma submissionLoop_prefix (p : Params F) (g : Globals F) (trailing : Bool)
    (rows : List test_rec) :
    ∀ (i : Int) (locals : Option test_rec),
      (∀ r0, locals = some r0 → r0.id ≠ i) →
      (locals = none → rows ≠ [] ∨ trailing = false) →
      ∃ n, n ≤ rows.length ∧
        (rows.take n).map (fun r => r.id) = (List.range n).map (fun k : Nat => i + (k : Int)) ∧
        (∀ r, rows[n]? = some r → r.id ≠ i + (n : Int)) ∧
        submissionLoop p g trailing i locals rows =
          some ((rows.take n).map (submissionRow p g)) := by
  induction rows with
  | nil =>
    intro i locals hstale hinit
    refine ⟨0, le_refl _, by simp, by simp, ?_⟩
    cases trailing with
    | false => simp [submissionLoop]
    | true =>
      cases locals with
      | none => simpa using hinit rfl
      | some r0 =>
        have hne : ¬ i = r0.id := fun hc => hstale r0 rfl hc.symm
        simp [submissionLoop, hne]
  | cons r rest ih =>
    intro i locals hstale hinit
    by_cases h : i = r.id
    · have hnext : ∀ r0, some r = some r0 → r0.id ≠ i + 1 := by
        intro r0 h0
        simp only [Option.some.injEq] at h0
        subst h0
        rw [← h]
        omega
      obtain ⟨n, hlen, hids, hstop, hout⟩ :=
        ih (i + 1) (some r) hnext (fun hc => by cases hc)
      refine ⟨n + 1, by simpa using hlen, ?_, ?_, ?_⟩
      · rw [List.take_succ_cons, List.map_cons, hids, List.range_succ_eq_map, List.map_cons,
          List.map_map]
        congr 1
        · simp [h]
        · apply List.map_congr_left
          intro k _
          simp only [Function.comp, Nat.succ_eq_add_one]
          push_cast
          ring
      · intro r1 hr1
        rw [List.getElem?_cons_succ] at hr1
        have := hstop r1 hr1
        push_cast
        intro hc
        exact this (by rw [hc]; ring)
      · rw [submissionLoop, if_neg (by simpa using h), hout, List.take_succ_cons, List.map_cons]
        rfl
    · refine ⟨0, by simp, by simp, ?_, ?_⟩
      · intro r1 hr1
        simp only [List.getElem?_cons_zero, Option.some.injEq] at hr1
        subst hr1
        simpa using fun hc => h hc.symm
      · rw [submissionLoop, if_pos h]
        rfl

/-- C4: on the input without records that ends in white space (a header line
and its newline) the submission loop runs one pass in which `fscanf` assigns
nothing and compares an `id` that was never assigned: it has no defined result,
where the claim has it write nothing.  On every other input it writes one row
`(id, predict(user, item))` for each record of the longest prefix whose ids
are `1, 2, 3, ...` in order and nothing for the first record that breaks the
sequence or any record after it; for ids `[1, 2, 4]` it writes the rows of ids
`1` and `2`. -/
theorem fillSubmission_prefix_or_undefined (p : Params F) (g : Globals F) :
    fillSubmission p g ⟨[], true⟩ = none ∧
    (∀ file : test_file, (file.rows ≠ [] ∨ file.trailing = false) →
      ∃ n, n ≤ file.rows.length ∧
        (file.rows.take n).map (fun r => r.id) =
          (List.range n).map (fun k : Nat => (k : Int) + 1) ∧
        (∀ r, file.rows[n]? = some r → r.id ≠ (n : Int) + 1) ∧
        fillSubmission p g file = some ((file.rows.take n).map (submissionRow p g))) ∧
    (∀ (u1 i1 u2 i2 u3 i3 : Nat) (rest : List test_rec) (trailing : Bool),
      fillSubmission p g ⟨⟨1, u1, i1⟩ :: ⟨2, u2, i2⟩ :: ⟨4, u3, i3⟩ :: rest, trailing⟩ =
        some [(1, predict p g u1 i1), (2, predict p g u2 i2)]) := by
  refine ⟨rfl, ?_, ?_⟩
  · intro file hfile
    obtain ⟨n, hlen, hids, hstop, hout⟩ :=
      submissionLoop_prefix p g file.trailing file.rows 1 none
        (fun r0 hc => by cases hc) (fun _ => hfile)
    refine ⟨n, hlen, ?_, ?_, hout⟩
    · rw [hids]
      apply List.map_congr_left
      intro k _
      ring
    · intro r hr
      rw [add_comm]
      exact hstop r hr
  · intro u1 i1 u2 i2 u3 i3 rest trailing
    simp [fillSubmission, submissionLoop]

/-! ## Hold-out MSE -/

lemma holdoutMSE_eq (p : Params F) (n : Nat) (file : Nat → holdout_rec F) (g : Globals F) :
    holdoutMSE p n file g = meanSquaredError p n file g := by
  simp only [holdoutMSE, meanSquaredError]
  rw [Finset.mul_sum, ← forPure_add_eq_sum]
  congr 1
  funext i acc
  ring

lemma holdoutMSE32_two (p : Params fval) (file : Nat → holdout_rec fval) (g : Globals fval)
    (p0 : predict32 p g (file 0).user (file 0).item = fval.fin 3)
    (p1 : predict32 p g (file 1).user (file 1).item = fval.fin 4)
    (t0 : (file 0).rating_true = fval.fin 3) (t1 : (file 1).rating_true = fval.fin 5) :
    holdoutMSE32 p 2 file g = fval.fin (1 / 2) := by
  simp only [holdoutMSE32]
  rw [forPure_succ, forPure_succ]
  simp only [forPure, List.range_zero, List.foldl_nil, p0, p1, t0, t1]
  exact fval.eq_fin_of_toRat? _ _ (by decide!)

/-- C5 (as stated, refuted): for three hold-out records with prediction `3` and
true ratings `4`, `3`, `3` the mean squared error is `1/3`, while the evaluator
loop accumulates the `float` nearest to `1/3`, `11184811 / 33554432`
(`ninv` is `1/3` rounded, and no `float` equals `1/3`). -/
theorem holdoutMSE32_differs_from_mean :
    (holdoutMSE32 mseParams32 3 threeRecordFile32 mseGlobals32).toRat? =
        some (11184811 / 33554432) ∧
    meanSquaredError32 mseParams32 3 threeRecordFile32 mseGlobals32 = 1 / 3 ∧
    (holdoutMSE32 mseParams32 3 threeRecordFile32 mseGlobals32).toRat? ≠
        some (meanSquaredError32 mseParams32 3 threeRecordFile32 mseGlobals32) := by
  decide!

/-- C5 (amended): with arithmetic taken as exact, for `n > 0` hold-out records
the value the evaluator loop accumulates (`mse` starts at `0` and gains
`(1/n) * (true - pred)^2` per record) is the mean squared error
`(1/n) * Σ (true_k - pred_k)^2`; for two records with predictions `3`, `4` and
true ratings `3`, `5` it is `1/2`, in exact arithmetic and in the `float`
arithmetic of the source alike. -/
theorem holdoutMSE_is_mean_squared_error (p : Params F) (n : Nat)
    (file : Nat → holdout_rec F) (g : Globals F) (hn : 0 < n) :
    holdoutMSE p n file g =
        (1 / (n : F)) *
          ∑ k ∈ Finset.range n,
            ((file k).rating_true - predict p g (file k).user (file k).item) ^ 2 ∧
    (n = 2 → predict p g (file 0).user (file 0).item = 3 →
      predict p g (file 1).user (file 1).item = 4 →
      (file 0).rating_true = 3 → (file 1).rating_true = 5 →
      holdoutMSE p n file g = 1 / 2) ∧
    (∀ (p32 : Params fval) (file32 : Nat → holdout_rec fval) (g32 : Globals fval),
      predict32 p32 g32 (file32 0).user (file32 0).item = fval.fin 3 →
      predict32 p32 g32 (file32 1).user (file32 1).item = fval.fin 4 →
      (file32 0).rating_true = fval.fin 3 → (file32 1).rating_true = fval.fin 5 →
      holdoutMSE32 p32 2 file32 g32 = fval.fin (1 / 2)) := by
  have _ := hn
  refine ⟨holdoutMSE_eq p n file g, ?_, holdoutMSE32_two⟩
  intro h2 p0 p1 t0 t1
  subst h2
  rw [holdoutMSE_eq, meanSquaredError, Finset.sum_range_succ, Finset.sum_range_one, p0, p1, t0, t1]
  norm_num

/-- Witness for C5 (amended): two records, predictions `3` and `4`, true
ratings `3` and `5`; the accumulated value is `1/2` in exact arithmetic and in
`float` arithmetic. -/
theorem holdoutMSE_witness :
    holdoutMSE mseParams 2 mseFile mseGlobals = 1 / 2 ∧
    holdoutMSE32 mseParams32 2 mseFile32 mseGlobals32 = fval.fin (1 / 2) :=
  ⟨(holdoutMSE_is_mean_squared_error mseParams 2 mseFile mseGlobals (by decide)).2.1 rfl
      (by norm_num [predict, mseParams, mseGlobals, mseFile, List.range_succ])
      (by norm_num [predict, mseParams, mseGlobals, mseFile, List.range_succ])
      (by norm_num [mseFile]) (by norm_num [mseFile]),
    (holdoutMSE_is_mean_squared_error mseParams 2 mseFile mseGlobals (by decide)).2.2
      mseParams32 mseFile32 mseGlobals32
      (fval.eq_fin_of_toRat? _ _ (by decide!)) (fval.eq_fin_of_toRat? _ _ (by decide!))
      rfl rfl⟩

/-! ## Constant initialisation -/

lemma fill_user_column (n i : Nat) (v : F) (g : Globals F) :
    forPure n (fun j g => { g with user_vec := set2 g.user_vec j i v }) g =
      { df := g.df
        user_vec := fun a b => if a < n ∧ b = i then v else g.user_vec a b
        item_vec := g.item_vec
        rand_pos := g.rand_pos } := by
  induction n with
  | zero => cases g; simp [forPure]
  | succ n ih =>
    rw [forPure_succ, ih]
    simp only [Globals.mk.injEq, true_and, and_true]
    funext a b
    by_cases ha : a = n
    · subst ha
      by_cases hb : b = i
      · simp [set2, hb]
      · simp [set2, Function.update, hb]
    · have hiff : a < n + 1 ↔ a < n := by omega
      simp [set2, Function.update, ha, hiff]

lemma fill_item_column (n i : Nat) (v : F) (g : Globals F) :
    forPure n (fun j g => { g with item_vec := set2 g.item_vec j i v }) g =
      { df := g.df
        user_vec := g.user_vec
        item_vec := fun a b => if a < n ∧ b = i then v else g.item_vec a b
        rand_pos := g.rand_pos } := by
  induction n with
  | zero => cases g; simp [forPure]
  | succ n ih =>
    rw [forPure_succ, ih]
    simp only [Globals.mk.injEq, true_and, and_true]
    funext a b
    by_cases ha : a = n
    · subst ha
      by_cases hb : b = i
      · simp [set2, hb]
      · simp [set2, Function.update, hb]
    · have hiff : a < n + 1 ↔ a < n := by omega
      simp [set2, Function.update, ha, hiff]

lemma fill_columns (nu ni K : Nat) (v : F) (g : Globals F) :
    forPure K (fun i g =>
        let g := forPure nu (fun j g => { g with user_vec := set2 g.user_vec j i v }) g
        let g := forPure ni (fun j g => { g with item_vec := set2 g.item_vec j i v }) g
        g) g =
      { df := g.df
        user_vec := fun a b => if a < nu ∧ b < K then v else g.user_vec a b
        item_vec := fun a b => if a < ni ∧ b < K then v else g.item_vec a b
        rand_pos := g.rand_pos } := by
  induction K with
  | zero => cases g; simp [forPure]
  | succ K ih =>
    rw [forPure_succ, ih]
    simp only [fill_user_column, fill_item_column, Globals.mk.injEq, true_and, and_true]
    constructor
    · funext a b
      by_cases ha : a < nu
      · by_cases hb : b = K
        · simp [ha, hb]
        · have hiff : b < K + 1 ↔ b < K := by omega
          simp [ha, hb, hiff]
      · simp [ha]
    · funext a b
      by_cases ha : a < ni
      · by_cases hb : b = K
        · simp [ha, hb]
        · have hiff : b < K + 1 ↔ b < K := by omega
          simp [ha, hb, hiff]
      · simp [ha]

lemma initConstant_eq (p : Params F) (v : F) (g : Globals F) :
    initConstant p v g =
      { df := g.df
        user_vec := fun a b => if a < p.N_USERS ∧ b < p.N_SVD_FEATURES then v else g.user_vec a b
        item_vec := fun a b => if a < p.N_ITEMS ∧ b < p.N_SVD_FEATURES then v else g.item_vec a b
        rand_pos := g.rand_pos } :=
  fill_columns p.N_USERS p.N_ITEMS p.N_SVD_FEATURES v g

lemma predict_of_constant_rows (p : Params F) (g : Globals F) (v : F) (user item : Nat)
    (hu : ∀ t, t < p.N_SVD_FEATURES → g.user_vec user t = v)
    (hi : ∀ t, t < p.N_SVD_FEATURES → g.item_vec item t = v) :
    predict p g user item = clip15 ((p.N_SVD_FEATURES : F) * v * v) := by
  rw [predict_eq_clip]
  congr 1
  unfold dotProduct
  rw [Finset.sum_congr rfl (fun t ht => by
    rw [hu t (Finset.mem_range.mp ht), hi t (Finset.mem_range.mp ht)])]
  rw [Finset.sum_const, Finset.card_range, nsmul_eq_mul, mul_assoc]

lemma predict_initConstant (p : Params F) (v : F) (g : Globals F) (user item : Nat)
    (hu : user < p.N_USERS) (hi : item < p.N_ITEMS) :
    predict p (initConstant p v g) user item = clip15 ((p.N_SVD_FEATURES : F) * v * v) := by
  apply predict_of_constant_rows
  · intro t ht
    simp [initConstant_eq, hu, ht]
  · intro t ht
    simp [initConstant_eq, hi, ht]

/-- C6: with `K ≥ 1` features, when every entry of both factor tables is `v`
(the state the constant-initialisation loop produces) `predict` returns
`clip(K * v * v, 1, 5)` for every user and item; with the value of the source,
`v = 1 / sqrt(K)`, it returns exactly `1`. -/
theorem predict_after_constant_init (p : Params ℝ) (hK : 1 ≤ p.N_SVD_FEATURES) :
    (∀ (v : ℝ) (g : Globals ℝ) (j t : Nat), t < p.N_SVD_FEATURES →
      (j < p.N_USERS → (initConstant p v g).user_vec j t = v) ∧
      (j < p.N_ITEMS → (initConstant p v g).item_vec j t = v)) ∧
    (∀ (v : ℝ) (g : Globals ℝ),
      (∀ j t, j < p.N_USERS → t < p.N_SVD_FEATURES → g.user_vec j t = v) →
      (∀ j t, j < p.N_ITEMS → t < p.N_SVD_FEATURES → g.item_vec j t = v) →
      ∀ user item, user < p.N_USERS → item < p.N_ITEMS →
        predict p g user item = clip15 ((p.N_SVD_FEATURES : ℝ) * v * v)) ∧
    (∀ (v : ℝ) (g : Globals ℝ) (user item : Nat), user < p.N_USERS → item < p.N_ITEMS →
      predict p (initConstant p v g) user item = clip15 ((p.N_SVD_FEATURES : ℝ) * v * v)) ∧
    (∀ (uv_file iv_file : Nat → Nat → ℝ) (g : Globals ℝ) (user item : Nat),
      user < p.N_USERS → item < p.N_ITEMS →
        predict p (initVectors p Real.sqrt uv_file iv_file g) user item = 1) := by
  refine ⟨?_, ?_, ?_, ?_⟩
  · intro v g j t ht
    constructor
    · intro hj
      simp [initConstant_eq, hj, ht]
    · intro hj
      simp [initConstant_eq, hj, ht]
  · intro v g hu hi user item huser hitem
    exact predict_of_constant_rows p g v user item (fun t ht => hu user t huser ht)
      (fun t ht => hi item t hitem ht)
  · intro v g user item huser hitem
    exact predict_initConstant p v g user item huser hitem
  · intro uv_file iv_file g user item huser hitem
    have hflag : INIT_FROM_FILE = false := rfl
    have hpos : (0 : ℝ) < (p.N_SVD_FEATURES : ℝ) := by exact_mod_cast hK
    have hs : Real.sqrt (p.N_SVD_FEATURES : ℝ) ≠ 0 := (Real.sqrt_pos.mpr hpos).ne'
    have hone : (p.N_SVD_FEATURES : ℝ) * (1 / Real.sqrt (p.N_SVD_FEATURES : ℝ)) *
        (1 / Real.sqrt (p.N_SVD_FEATURES : ℝ)) = 1 := by
      field_simp
    unfold initVectors
    rw [hflag, if_neg (by simp), predict_initConstant p _ g user item huser hitem, hone]
    simp [clip15]

/-- Witness for C6: the constants of the source file (`K = 300`), user `0`,
item `0`, starting from zero-filled tables. -/
theorem predict_after_constant_init_witness :
    predict (sourceParams : Params ℝ)
      (initVectors sourceParams Real.sqrt (fun _ _ => 0) (fun _ _ => 0)
        { df := { n_rows := 0, rows := fun _ => ⟨0, 0, 0⟩ }
          user_vec := fun _ _ => 0
          item_vec := fun _ _ => 0
          rand_pos := 0 }) 0 0 = 1 :=
  (predict_after_constant_init sourceParams (by norm_num [sourceParams])).2.2.2 _ _ _ 0 0
    (by norm_num [sourceParams]) (by norm_num [sourceParams])

/-! ## Iteration schedule -/

lemma sqrt_succ_pos (i : Nat) : 0 < Real.sqrt ((i + 1 : Nat) : ℝ) := by
  apply Real.sqrt_pos.mpr
  exact_mod_cast Nat.succ_pos i

lemma iterations_le_of_le (p : Params ℝ) (s t : Nat) (h : s ≤ t) :
    iterations p Real.sqrt t ≤ iterations p Real.sqrt s := by
  unfold iterations
  apply div_le_div_of_nonneg_left (Nat.cast_nonneg _) (sqrt_succ_pos s)
  apply Real.sqrt_le_sqrt
  exact_mod_cast Nat.succ_le_succ h

/-- C7: the per-feature budget `iterations(t) = N_ITERS / sqrt(t + 1)` is
non-increasing in `t` (for `s ≤ t`, `iterations(t) ≤ iterations(s)`), it equals
`N_ITERS` at `t = 0`, and the number of steps the bound `j < N_ITERS / sqrt(i + 1)`
admits is non-increasing as well; the budget is strictly decreasing when
`N_ITERS > 0`. -/
theorem iterations_non_increasing (p : Params ℝ) :
    iterations p Real.sqrt 0 = (p.N_ITERS : ℝ) ∧
    (∀ s t : Nat, s ≤ t → iterations p Real.sqrt t ≤ iterations p Real.sqrt s) ∧
    (∀ t j : Nat, (j : ℝ) < iterations p Real.sqrt t ↔ j < innerSteps p Real.sqrt t) ∧
    innerSteps p Real.sqrt 0 = p.N_ITERS ∧
    (∀ s t : Nat, s ≤ t → innerSteps p Real.sqrt t ≤ innerSteps p Real.sqrt s) ∧
    (0 < p.N_ITERS →
      ∀ s t : Nat, s < t → iterations p Real.sqrt t < iterations p Real.sqrt s) := by
  have h0 : iterations p Real.sqrt 0 = (p.N_ITERS : ℝ) := by
    simp [iterations]
  refine ⟨h0, iterations_le_of_le p, ?_, ?_, ?_, ?_⟩
  · intro t j
    exact Nat.lt_ceil.symm
  · unfold innerSteps
    rw [h0, Nat.ceil_natCast]
  · intro s t h
    exact Nat.ceil_mono (iterations_le_of_le p s t h)
  · intro hN s t h
    unfold iterations
    have hNpos : (0 : ℝ) < (p.N_ITERS : ℝ) := by exact_mod_cast hN
    rw [div_lt_div_iff_of_pos_left hNpos (sqrt_succ_pos t) (sqrt_succ_pos s)]
    apply Real.sqrt_lt_sqrt (Nat.cast_nonneg _)
    exact_mod_cast Nat.succ_lt_succ h

/-! ## Training block -/

lemma featureBody_eq_cont [FloorRing F] (p : Params F) (sqrt : F → F) (rand : Nat → Nat)
    (i : Nat) (g : Globals F) :
    featureBody p sqrt rand i g = Flow.cont g := rfl

lemma train_eq_next [FloorRing F] (p : Params F) (sqrt : F → F) (rand : Nat → Nat)
    (g : Globals F) :
    train p sqrt rand g = Flow.next { g with rand_pos := 0 } :=
  forRange_of_cont p.N_SVD_FEATURES (featureBody p sqrt rand)
    (featureBody_eq_cont p sqrt rand) _

/-- C10: in the training block as written every pass of the outer loop ends at
the `continue` before the inner sampling loop, so the block completes with both
factor tables (and the rating store) exactly as they were before it, for every
rating store and every initial contents of the tables. -/
theorem train_leaves_tables_unchanged [FloorRing F] (p : Params F) (sqrt : F → F)
    (rand : Nat → Nat) (g : Globals F) :
    (∀ i : Nat, ∀ s : Globals F, featureBody p sqrt rand i s = Flow.cont s) ∧
    ∃ g1 : Globals F, train p sqrt rand g = Flow.next g1 ∧
      g1.user_vec = g.user_vec ∧ g1.item_vec = g.item_vec ∧ g1.df = g.df :=
  ⟨featureBody_eq_cont p sqrt rand, _, train_eq_next p sqrt rand g, rfl, rfl, rfl⟩

/-- C8 (as stated, refuted): with an empty rating store (`n_rows = 0`), the
constants of the source file and the real square root, the training block does
not fail: it completes normally, with zero-filled tables still zero-filled. -/
theorem train_empty_store_no_error :
    (emptyGlobals : Globals ℝ).df.n_rows = 0 ∧
    (train sourceParams Real.sqrt (fun n => n) (emptyGlobals : Globals ℝ)).isNext = true ∧
    (train sourceParams Real.sqrt (fun n => n) (emptyGlobals : Globals ℝ)).state?.map
      (fun s => s.user_vec) = some (fun _ _ => 0) ∧
    (train sourceParams Real.sqrt (fun n => n) (emptyGlobals : Globals ℝ)).state?.map
      (fun s => s.item_vec) = some (fun _ _ => 0) := by
  rw [train_eq_next]
  exact ⟨rfl, rfl, rfl, rfl⟩

/-- C8 (amended): when the rating store is empty (`n_rows = 0`) the training
block performs no check and raises no error: it completes normally and leaves
both factor tables as they were. -/
theorem train_empty_store_completes [FloorRing F] (p : Params F) (sqrt : F → F)
    (rand : Nat → Nat) (g : Globals F) (h : g.df.n_rows = 0) :
    (train p sqrt rand g).isNext = true ∧
    (train p sqrt rand g).state?.map (fun s => s.user_vec) = some g.user_vec ∧
    (train p sqrt rand g).state?.map (fun s => s.item_vec) = some g.item_vec ∧
    (train p sqrt rand g).state?.map (fun s => s.df.n_rows) = some 0 := by
  rw [train_eq_next]
  exact ⟨rfl, rfl, rfl, by simp [Flow.state?, h]⟩

/-- Witness for C8 (amended): the empty store with the small parameters. -/
theorem train_empty_store_completes_witness :
    (train smallParams (fun x => x) (fun n => n) (emptyGlobals : Globals ℚ)).isNext = true ∧
    (train smallParams (fun x => x) (fun n => n) (emptyGlobals : Globals ℚ)).state?.map
        (fun s => s.user_vec) = some (emptyGlobals : Globals ℚ).user_vec ∧
    (train smallParams (fun x => x) (fun n => n) (emptyGlobals : Globals ℚ)).state?.map
        (fun s => s.item_vec) = some (emptyGlobals : Globals ℚ).item_vec ∧
    (train smallParams (fun x => x) (fun n => n) (emptyGlobals : Globals ℚ)).state?.map
        (fun s => s.df.n_rows) = some 0 :=
  train_empty_store_completes smallParams (fun x => x) (fun n => n) (emptyGlobals : Globals ℚ) rfl

/-! ## Reading the dataset -/

/-- C9 (as stated, refuted): loading a binary source with five records into a
store of capacity four completes and changes the store: `n_rows` goes from `0`
to `5` and the first record of the source is in `rows[0]`. -/
theorem readDataset_over_capacity_changes_store :
    smallParams.N_ROWS < fiveRowFile.rows.length ∧
    (emptyGlobals : Globals ℚ).df.n_rows = 0 ∧
    (readDataset smallParams READ_FROM_BINARY fiveRowFile ⟨[], false⟩ (emptyGlobals : Globals ℚ)).df.n_rows = 5 ∧
    ((readDataset smallParams READ_FROM_BINARY fiveRowFile ⟨[], false⟩ (emptyGlobals : Globals ℚ)).df.rows 0).rating = 1 ∧
    ((emptyGlobals : Globals ℚ).df.rows 0).rating = 0 := by
  decide

/-- C9 (amended): loading the rating store, as configured
(`READ_FROM_BINARY = true`), from a source with more than `N_ROWS` records
performs no capacity check and does not fail: `n_rows` becomes the count stored
in the source, `rows[k]` becomes the `k`-th record of the source for every
`k < N_ROWS`, the records beyond `N_ROWS` are not read, and the factor tables
are untouched. -/
theorem readDataset_over_capacity (p : Params F) (bin : bin_file) (txt : text_file)
    (g : Globals F) (h : p.N_ROWS < bin.rows.length) :
    (readDataset p READ_FROM_BINARY bin txt g).df.n_rows = bin.n_rows ∧
    (∀ k, k < p.N_ROWS →
      some ((readDataset p READ_FROM_BINARY bin txt g).df.rows k) = bin.rows[k]?) ∧
    (∀ k, p.N_ROWS ≤ k →
      (readDataset p READ_FROM_BINARY bin txt g).df.rows k = g.df.rows k) ∧
    (readDataset p READ_FROM_BINARY bin txt g).user_vec = g.user_vec ∧
    (readDataset p READ_FROM_BINARY bin txt g).item_vec = g.item_vec := by
  have hflag : READ_FROM_BINARY = true := rfl
  refine ⟨?_, ?_, ?_, ?_, ?_⟩
  · simp [readDataset, hflag, readBinary]
  · intro k hk
    have hlen : k < bin.rows.length := lt_trans hk h
    simp [readDataset, hflag, readBinary, hk, List.getElem?_eq_getElem hlen]
  · intro k hk
    simp [readDataset, hflag, readBinary, not_lt.mpr hk]
  · simp [readDataset, hflag]
  · simp [readDataset, hflag]

/-- Witness for C9 (amended): the five-record source and capacity four. -/
theorem readDataset_over_capacity_witness :
    (readDataset smallParams READ_FROM_BINARY fiveRowFile ⟨[], false⟩ (emptyGlobals : Globals ℚ)).df.n_rows =
        fiveRowFile.n_rows ∧
    (∀ k, k < smallParams.N_ROWS →
      some ((readDataset smallParams READ_FROM_BINARY fiveRowFile ⟨[], false⟩ (emptyGlobals : Globals ℚ)).df.rows k) =
        fiveRowFile.rows[k]?) ∧
    (∀ k, smallParams.N_ROWS ≤ k →
      (readDataset smallParams READ_FROM_BINARY fiveRowFile ⟨[], false⟩ (emptyGlobals : Globals ℚ)).df.rows k =
        (emptyGlobals : Globals ℚ).df.rows k) ∧
    (readDataset smallParams READ_FROM_BINARY fiveRowFile ⟨[], false⟩ (emptyGlobals : Globals ℚ)).user_vec =
        (emptyGlobals : Globals ℚ).user_vec ∧
    (readDataset smallParams READ_FROM_BINARY fiveRowFile ⟨[], false⟩ (emptyGlobals : Globals ℚ)).item_vec =
        (emptyGlobals : Globals ℚ).item_vec :=
  readDataset_over_capacity smallParams fiveRowFile ⟨[], false⟩ (emptyGlobals : Globals ℚ) (by decide)

end SvdTrain
